import Mathlib

/-!
# LiveLink chat — shallow embedding of the realtime chat service

This file embeds the data model and operations of the chat service into
Lean 4 and proves properties of that embedding.

The repository carries the service in `src/types/chat.ts` (the
Supabase-backed variant, whose persisted schema is the SQL DDL appended to
`src/services/chatService.ts` and the migration in `src/unnamed/part_001`)
and a Firebase-backed variant of the same functions in
`src/services/chatService.ts`.  The embedding below follows the
Supabase variant — its table layout is exactly the DDL in the repository —
and additionally embeds the Firebase variant of `acceptFriendRequest`
(the two variants differ there in how profile lookups are sequenced).

Conventions of the embedding:
* every table of the DDL is a `List` of row structures inside `Store`;
* `gen_random_uuid()` primary keys become `Nat`s drawn from a `nextId`
  counter; store-assigned timestamps (`now()` defaults and the
  `update_updated_at_column` triggers) become `Nat`s drawn from a `now`
  clock that advances whenever a timestamp is written;
* a PostgREST `.maybeSingle()` / `.single()` read becomes `List.find?`,
  an `.update(..).eq(..)` becomes a key-preserving `List.map`, a
  `.delete().eq(..)` becomes a `List.filter`, and an `.insert` appends;
* the `UNIQUE` constraints of the DDL are enforced at insertion: an
  insert statement that would violate one fails atomically (no row is
  added); call sites that ignore the returned `error` — as
  `acceptFriendRequest` does for the `friends` pair insert — are modelled
  by discarding that failure.
-/

namespace LiveLink

/-- A row of `profiles` (DDL in `chatService.ts`): the fields the service
reads. `getUserById` keys profiles by `firebase_uid`. -/
structure Profile where
  firebase_uid : String
  username : String
  nickname : String
  avatar : Option String
  deriving Repr, DecidableEq

/-- A row of `friend_requests`. -/
structure FriendRequestRow where
  id : Nat
  sender_id : String
  receiver_id : String
  status : String
  deriving Repr, DecidableEq

/-- A row of `friends`; the DDL declares `UNIQUE(user_id, friend_id)`. -/
structure FriendRow where
  id : Nat
  user_id : String
  friend_id : String
  deriving Repr, DecidableEq

/-- A row of `chats`.  `participants` is the `TEXT[]` column; `last_message`
and `last_message_time` are the nullable summary columns. -/
structure ChatRow where
  id : Nat
  ctype : String
  name : Option String
  participants : List String
  last_message : Option String
  last_message_time : Option Nat
  deriving Repr, DecidableEq

/-- A row of `messages`; `created_at` is store-assigned. -/
structure MessageRow where
  id : Nat
  chat_id : Nat
  sender_id : String
  sender_name : String
  content : String
  created_at : Nat
  deriving Repr, DecidableEq

/-- A row of `unread_counts`; the DDL declares `UNIQUE(chat_id, user_id)`. -/
structure UnreadRow where
  chat_id : Nat
  user_id : String
  count : Nat
  deriving Repr, DecidableEq

/-- A row of `group_members`; the DDL declares `UNIQUE(chat_id, user_id)`. -/
structure GroupMemberRow where
  chat_id : Nat
  user_id : String
  role : String
  deriving Repr, DecidableEq

/-- A row of `typing_status`; `updated_at` is maintained by the store
(`DEFAULT now()` on insert, the `update_typing_status_updated_at` trigger
on update).  The DDL declares `UNIQUE(chat_id, user_id)`. -/
structure TypingRow where
  chat_id : Nat
  user_id : String
  is_typing : Bool
  updated_at : Nat
  deriving Repr, DecidableEq

/-- The shared backing store: one list per table of the persisted schema,
plus the id counter and the clock that stand in for `gen_random_uuid()`
and `now()`. -/
structure Store where
  profiles : List Profile
  friend_requests : List FriendRequestRow
  friends : List FriendRow
  chats : List ChatRow
  messages : List MessageRow
  unread_counts : List UnreadRow
  group_members : List GroupMemberRow
  typing_status : List TypingRow
  nextId : Nat
  now : Nat
  deriving Repr, DecidableEq

/-- `getUserById` (`chat.ts`): `profiles` row whose `firebase_uid` equals
`userId`, if any. -/
def getUserById (s : Store) (userId : String) : Option Profile :=
  s.profiles.find? (fun p => p.firebase_uid == userId)

/-- Errors surfaced by `sendFriendRequest` (`chat.ts`): each failure is a
distinct thrown message. -/
inductive FriendRequestError where
  | senderNotFound
  | requestAlreadySent
  | alreadyFriends
  deriving Repr, DecidableEq

/-- `sendFriendRequest` (`chat.ts` lines 213–244): look up the sender
profile; fail if a `friend_requests` row for the ordered pair already
exists; fail if a `friends` row `(sender, receiver)` already exists;
otherwise insert one pending request. -/
def sendFriendRequest (s : Store) (senderId receiverId : String) :
    Except FriendRequestError Store :=
  match getUserById s senderId with
  | none => .error .senderNotFound
  | some _ =>
    if (s.friend_requests.find? (fun r =>
        r.sender_id == senderId && r.receiver_id == receiverId)).isSome then
      .error .requestAlreadySent
    else if (s.friends.find? (fun r =>
        r.user_id == senderId && r.friend_id == receiverId)).isSome then
      .error .alreadyFriends
    else
      .ok { s with
        friend_requests := s.friend_requests ++
          [⟨s.nextId, senderId, receiverId, "pending"⟩],
        nextId := s.nextId + 1,
        now := s.now + 1 }

/-- The two-row `friends` insert issued by `acceptFriendRequest`
(`chat.ts` lines 251–254).  Postgres applies the multi-row insert
atomically: if either row collides with an existing `(user_id, friend_id)`
key — or the two rows collide with each other, i.e. `userId = friendId` —
the whole statement fails and no row is added.  The caller discards the
returned error, so the failure is swallowed here. -/
def friendsInsertPair (s : Store) (userId friendId : String) : Store :=
  if (s.friends.any (fun r => r.user_id == userId && r.friend_id == friendId))
      || (s.friends.any (fun r => r.user_id == friendId && r.friend_id == userId))
      || userId == friendId then
    s
  else
    { s with
      friends := s.friends ++
        [⟨s.nextId, userId, friendId⟩, ⟨s.nextId + 1, friendId, userId⟩],
      nextId := s.nextId + 2,
      now := s.now + 1 }

/-- `getOrCreateDMChat` (`chat.ts` lines 374–401): fetch the `dm` chats
whose `participants` contain `userId1`, return the first that also
contains `userId2`; otherwise insert a new chat with
`participants = [userId1, userId2]` (`last_message_time` takes the
`DEFAULT now()` of the DDL) and return its id. -/
def getOrCreateDMChat (s : Store) (userId1 userId2 : String) : Nat × Store :=
  let existing := (s.chats.filter (fun c =>
      c.ctype == "dm" && c.participants.contains userId1)).find? (fun c =>
      c.participants.contains userId2)
  match existing with
  | some c => (c.id, s)
  | none =>
    (s.nextId,
      { s with
        chats := s.chats ++
          [⟨s.nextId, "dm", none, [userId1, userId2], none, some s.now⟩],
        nextId := s.nextId + 1,
        now := s.now + 1 })

/-- `acceptFriendRequest` (`chat.ts` lines 246–258): delete the request
row, insert the symmetric `friends` pair (constraint failures ignored),
then `getOrCreateDMChat`. -/
def acceptFriendRequest (s : Store) (requestId : Nat)
    (userId friendId : String) : Nat × Store :=
  let s1 := { s with
    friend_requests := s.friend_requests.filter (fun r => !(r.id == requestId)) }
  let s2 := friendsInsertPair s1 userId friendId
  getOrCreateDMChat s2 userId friendId

/-- `rejectFriendRequest` (`chat.ts`): delete the request row only. -/
def rejectFriendRequest (s : Store) (requestId : Nat) : Store :=
  { s with
    friend_requests := s.friend_requests.filter (fun r => !(r.id == requestId)) }

/-- The unread count a reader observes for `(chatId, userId)`: the
`maybeSingle` read of `unread_counts` used by `subscribeToChats`
(`chat.ts` line 431–447), with a missing row read as `0`
(`unreadData?.count || 0`). -/
def getUnread (s : Store) (chatId : Nat) (userId : String) : Nat :=
  match s.unread_counts.find? (fun r =>
      r.chat_id == chatId && r.user_id == userId) with
  | some r => r.count
  | none => 0

/-- One iteration of the unread-count loop in `sendMessage` (`chat.ts`
lines 516–535): read the `(chatId, participantId)` row with `maybeSingle`;
if present, update every matching row to the read count plus one
(a read-modify-write); otherwise insert a fresh row with count 1. -/
def bumpUnread (s : Store) (chatId : Nat) (participantId : String) : Store :=
  match s.unread_counts.find? (fun r =>
      r.chat_id == chatId && r.user_id == participantId) with
  | some r0 =>
    { s with unread_counts := s.unread_counts.map (fun r =>
        if r.chat_id == chatId && r.user_id == participantId then
          { r with count := r0.count + 1 }
        else r) }
  | none =>
    { s with unread_counts := s.unread_counts ++ [⟨chatId, participantId, 1⟩] }

/-- `sendMessage` (`chat.ts` lines 478–540): insert the message row (the
`messages.chat_id` foreign key makes this fail when the chat does not
exist, and the code re-throws that error); update the chat's
`last_message` and `last_message_time`; fetch the chat's participants;
then run the unread-count loop for every participant other than the
sender.  No content or membership validation is performed. -/
def sendMessage (s : Store) (chatId : Nat)
    (senderId senderName content : String) : Except String (Nat × Store) :=
  if (s.chats.find? (fun c => c.id == chatId)).isNone then
    .error "foreign key violation on messages.chat_id"
  else
    let mid := s.nextId
    let s1 : Store := { s with
      messages := s.messages ++ [⟨mid, chatId, senderId, senderName, content, s.now⟩],
      nextId := s.nextId + 1,
      now := s.now + 1 }
    let s2 : Store := { s1 with
      chats := s1.chats.map (fun c =>
        if c.id == chatId then
          { c with last_message := some content, last_message_time := some s1.now }
        else c),
      now := s1.now + 1 }
    let participants :=
      match s2.chats.find? (fun c => c.id == chatId) with
      | some c => c.participants
      | none => []
    let s3 := participants.foldl (fun acc p =>
      if p == senderId then acc else bumpUnread acc chatId p) s2
    .ok (mid, s3)

/-- `clearUnreadCount` (`chat.ts`): upsert the `(chatId, userId)` row to
count 0 (`onConflict: chat_id,user_id`). -/
def clearUnreadCount (s : Store) (chatId : Nat) (userId : String) : Store :=
  match s.unread_counts.find? (fun r =>
      r.chat_id == chatId && r.user_id == userId) with
  | some _ =>
    { s with unread_counts := s.unread_counts.map (fun r =>
        if r.chat_id == chatId && r.user_id == userId then
          { r with count := 0 }
        else r) }
  | none =>
    { s with unread_counts := s.unread_counts ++ [⟨chatId, userId, 0⟩] }

/-- `clearChat` (`chat.ts` lines 548–554): delete every `messages` row of
the chat, then update the chat setting `last_message` to null.  No other
column is touched. -/
def clearChat (s : Store) (chatId : Nat) : Store :=
  let s1 : Store := { s with
    messages := s.messages.filter (fun m => !(m.chat_id == chatId)) }
  { s1 with
    chats := s1.chats.map (fun c =>
      if c.id == chatId then { c with last_message := none } else c) }

/-- Insertion of one message row into a list kept in ascending
`created_at` order; models the `order by created_at ascending` of the
message query. -/
def insertByCreatedAt (m : MessageRow) : List MessageRow → List MessageRow
  | [] => [m]
  | x :: xs =>
    if m.created_at ≤ x.created_at then m :: x :: xs
    else x :: insertByCreatedAt m xs

/-- Sort a list of message rows by ascending `created_at`. -/
def sortByCreatedAt (l : List MessageRow) : List MessageRow :=
  l.foldr insertByCreatedAt []

/-- The query behind `subscribeToMessages` (`chat.ts` lines 560–566):
the chat's messages, ordered by `created_at` ascending, limited to the
first 100 rows. -/
def fetchMessages (s : Store) (chatId : Nat) : List MessageRow :=
  (sortByCreatedAt (s.messages.filter (fun m => m.chat_id == chatId))).take 100

/-- JavaScript `String.prototype.trim`: drop whitespace from both ends.
(Defined over the character list so that it evaluates inside the
kernel.) -/
def strTrim (s : String) : String :=
  ⟨(((s.data.dropWhile Char.isWhitespace).reverse).dropWhile
    Char.isWhitespace).reverse⟩

/-- `Array.from(new Set(xs))` of `createGroup`: deduplicate keeping the
first occurrence of each element, preserving order. -/
def dedupFirstAux (seen : List String) : List String → List String
  | [] => []
  | x :: xs =>
    if seen.contains x then dedupFirstAux seen xs
    else x :: dedupFirstAux (x :: seen) xs

/-- Deduplicate a list keeping first occurrences, as `new Set` does. -/
def dedupFirst (l : List String) : List String :=
  dedupFirstAux [] l

/-- Errors thrown by the group operations. -/
inductive GroupError where
  | tooFewMembers
  | groupNotFound
  deriving Repr, DecidableEq

/-- `createGroup` (`chat.ts` lines 607–642): members are the admin plus
the given ids, deduplicated (`new Set`) and with blank ids dropped
(`id.trim().length > 0`); fewer than 2 members is an error; otherwise
insert the group chat and one `group_members` row per member. -/
def createGroup (s : Store) (name : String) (adminId : String)
    (memberIds : List String) : Except GroupError (Nat × Store) :=
  let allMembers := (dedupFirst (adminId :: memberIds)).filter
    (fun id => (strTrim id).length > 0)
  if allMembers.length < 2 then
    .error .tooFewMembers
  else
    let cid := s.nextId
    .ok (cid,
      { s with
        chats := s.chats ++
          [⟨cid, "group", some (strTrim name), allMembers, none, some s.now⟩],
        group_members := s.group_members ++ allMembers.map (fun m =>
          ⟨cid, m, if m == adminId then "admin" else "member"⟩),
        nextId := s.nextId + 1,
        now := s.now + 1 })

/-- `addGroupMember` (`chat.ts` lines 644–665): read the chat's
participants; append `userId` unconditionally and write the new array
back; then insert a `group_members` row (whose unique-constraint failure,
were the user already a member, is not checked by the code and is
swallowed here). -/
def addGroupMember (s : Store) (chatId : Nat) (userId : String) :
    Except GroupError Store :=
  match s.chats.find? (fun c => c.id == chatId) with
  | none => .error .groupNotFound
  | some c =>
    let participants := c.participants ++ [userId]
    let s1 : Store := { s with
      chats := s.chats.map (fun c2 =>
        if c2.id == chatId then { c2 with participants := participants } else c2) }
    if s1.group_members.any (fun g => g.chat_id == chatId && g.user_id == userId) then
      .ok s1
    else
      .ok { s1 with
        group_members := s1.group_members ++ [⟨chatId, userId, "member"⟩] }

/-- `removeGroupMember` (`chat.ts` lines 667–688): read the chat's
participants; filter `userId` out and write the array back; delete the
matching `group_members` row. -/
def removeGroupMember (s : Store) (chatId : Nat) (userId : String) :
    Except GroupError Store :=
  match s.chats.find? (fun c => c.id == chatId) with
  | none => .error .groupNotFound
  | some c =>
    let participants := c.participants.filter (fun id => !(id == userId))
    .ok { s with
      chats := s.chats.map (fun c2 =>
        if c2.id == chatId then { c2 with participants := participants } else c2),
      group_members := s.group_members.filter (fun g =>
        !(g.chat_id == chatId && g.user_id == userId)) }

/-- `setTypingStatus` (`chat.ts` lines 749–761): upsert the
`(chatId, userId)` row of `typing_status` to the given flag
(`onConflict: chat_id,user_id`).  The store stamps `updated_at`: the
`DEFAULT now()` on insert and the `update_typing_status_updated_at`
trigger on update. -/
def setTypingStatus (s : Store) (chatId : Nat) (userId : String)
    (isTyping : Bool) : Store :=
  match s.typing_status.find? (fun t =>
      t.chat_id == chatId && t.user_id == userId) with
  | some _ =>
    { s with
      typing_status := s.typing_status.map (fun t =>
        if t.chat_id == chatId && t.user_id == userId then
          { t with is_typing := isTyping, updated_at := s.now }
        else t),
      now := s.now + 1 }
  | none =>
    { s with
      typing_status := s.typing_status ++ [⟨chatId, userId, isTyping, s.now⟩],
      now := s.now + 1 }

/-- The query behind `subscribeToTypingStatus` (`chat.ts` lines 768–777):
the `user_id`s of the `typing_status` rows of the chat with
`is_typing = true` and `user_id ≠ currentUserId`.  The query does not
select or compare `updated_at`. -/
def fetchTyping (s : Store) (chatId : Nat) (currentUserId : String) :
    List String :=
  (s.typing_status.filter (fun t =>
    t.chat_id == chatId && t.user_id != currentUserId && t.is_typing)).map
    (fun t => t.user_id)

/-- Passage of `d` units of wall-clock time with no intervening write:
only the clock advances. -/
def tick (s : Store) (d : Nat) : Store :=
  { s with now := s.now + d }

/-! ## The Firebase variant of `acceptFriendRequest`

`src/services/chatService.ts` carries a Firestore-backed variant of the
same service.  Its `acceptFriendRequest` (lines 126–159) differs from the
Supabase one in that it looks up both user profiles after deleting the
request and throws `'User not found'` when either lookup fails.  Only
the parts that function touches are embedded: the `users` collection, the
`friendRequests` collection, the per-user `friends/{userId}/list`
subcollections (documents `{odId, username, nickname, avatar}`; display
fields beyond `odId` and the owner are dropped as they are never read by
the properties below), and the `chats` collection (reusing `ChatRow`;
the `participantDetails` display cache is not modelled). -/

/-- A document of the `friends/{owner}/list` subcollection, keyed here by
its owner. -/
structure FBFriendDoc where
  owner : String
  odId : String
  deriving Repr, DecidableEq

/-- The slice of the Firestore state that `acceptFriendRequest` touches. -/
structure FBState where
  users : List Profile
  friendRequests : List FriendRequestRow
  friendDocs : List FBFriendDoc
  chats : List ChatRow
  nextId : Nat
  now : Nat
  deriving Repr, DecidableEq

/-- `getUserById` of `chatService.ts`: the `users/{userId}` document. -/
def fbGetUserById (s : FBState) (userId : String) : Option Profile :=
  s.users.find? (fun p => p.firebase_uid == userId)

/-- `getOrCreateDMChat` of `chatService.ts` (lines 205–238): query `dm`
chats whose `participants` array contains `userId1`, return the first
that also includes `userId2`; otherwise add a chat document with
`participants: [userId1, userId2]`. -/
def fbGetOrCreateDMChat (s : FBState) (userId1 userId2 : String) :
    Nat × FBState :=
  let existing := (s.chats.filter (fun c =>
      c.ctype == "dm" && c.participants.contains userId1)).find? (fun c =>
      c.participants.contains userId2)
  match existing with
  | some c => (c.id, s)
  | none =>
    (s.nextId,
      { s with
        chats := s.chats ++
          [⟨s.nextId, "dm", none, [userId1, userId2], none, some s.now⟩],
        nextId := s.nextId + 1,
        now := s.now + 1 })

/-- `acceptFriendRequest` of `chatService.ts` (lines 126–159): delete the
request document first; then look up both profiles; if either is missing,
throw `'User not found'` — the deletion has already happened, and no
friend documents or chat are created; otherwise add the two friend
documents and call `getOrCreateDMChat`.  The post-state is returned
alongside the result so the error path's effects stay observable. -/
def fbAcceptFriendRequest (s : FBState) (requestId : Nat)
    (userId friendId : String) : Except String Nat × FBState :=
  let s1 : FBState := { s with
    friendRequests := s.friendRequests.filter (fun r => !(r.id == requestId)) }
  match fbGetUserById s1 userId, fbGetUserById s1 friendId with
  | some _, some _ =>
    let s2 : FBState := { s1 with
      friendDocs := s1.friendDocs ++
        [⟨userId, friendId⟩, ⟨friendId, userId⟩],
      now := s1.now + 1 }
    let r := fbGetOrCreateDMChat s2 userId friendId
    (.ok r.1, r.2)
  | _, _ => (.error "User not found", s1)

/-! ## Helper lemmas -/

/-- `find?` commutes with a pointwise rewrite that never changes whether
the predicate holds. -/
theorem find?_map_of_pres {α : Type} (l : List α) (p : α → Bool) (g : α → α)
    (hp : ∀ a, p (g a) = p a) :
    (l.map g).find? p = (l.find? p).map g := by
  rw [List.find?_map]
  have hcomp : p ∘ g = p := funext hp
  rw [hcomp]

/-- A concrete store used to instantiate the theorems below: three
profiles and nothing else. -/
def baseStore : Store :=
  ⟨[⟨"A", "a", "A", none⟩, ⟨"B", "b", "B", none⟩, ⟨"C", "c", "C", none⟩],
   [], [], [], [], [], [], [], 10, 100⟩

/-- A direct chat record for the unordered pair `{a, b}`: type `dm` and
participant set exactly `{a, b}`. -/
def dmForPair (a b : String) (c : ChatRow) : Bool :=
  c.ctype == "dm" && c.participants.contains a && c.participants.contains b
    && c.participants.all (fun x => x == a || x == b)

/-- The lookup query of `getOrCreateDMChat` finds nothing when the chat
table has no `dm` chat whose participants contain both users. -/
theorem dmLookup_eq_none (l : List ChatRow) (a b : String)
    (hnone : ∀ c ∈ l, c.ctype = "dm" →
      ¬(a ∈ c.participants ∧ b ∈ c.participants)) :
    (l.filter (fun c =>
      c.ctype == "dm" && c.participants.contains a)).find? (fun c =>
      c.participants.contains b) = none := by
  rw [List.find?_filter, List.find?_eq_none]
  intro c hc
  simp only [List.contains, Bool.and_eq_true, beq_iff_eq, decide_eq_true_eq,
    not_and, List.elem_iff]
  intro hdm hb
  exact hnone c hc hdm.1 ⟨hdm.2, hb⟩

/-- C1, first call: with no pre-existing chat for the pair,
`getOrCreateDMChat` appends one fresh `dm` chat with participants
`[a, b]` and returns its id. -/
theorem getOrCreateDMChat_creates (s : Store) (a b : String)
    (hnone : ∀ c ∈ s.chats, c.ctype = "dm" →
      ¬(a ∈ c.participants ∧ b ∈ c.participants)) :
    getOrCreateDMChat s a b =
      (s.nextId,
        { s with
          chats := s.chats ++
            [⟨s.nextId, "dm", none, [a, b], none, some s.now⟩],
          nextId := s.nextId + 1,
          now := s.now + 1 }) := by
  unfold getOrCreateDMChat
  rw [dmLookup_eq_none s.chats a b hnone]

/-- The lookup query of `getOrCreateDMChat` finds exactly the freshly
created chat for the pair once it has been appended to a chat table that
previously had none. -/
theorem dmLookup_append_new (l : List ChatRow) (a b : String) (nid t : Nat)
    (hnone : ∀ c ∈ l, c.ctype = "dm" →
      ¬(a ∈ c.participants ∧ b ∈ c.participants)) :
    ((l ++ [(⟨nid, "dm", none, [a, b], none, some t⟩ : ChatRow)]).filter
      (fun c => c.ctype == "dm" && c.participants.contains a)).find? (fun c =>
      c.participants.contains b) =
    some (⟨nid, "dm", none, [a, b], none, some t⟩ : ChatRow) := by
  rw [List.filter_append, List.find?_append, dmLookup_eq_none l a b hnone]
  simp

/-- When the pair lookup finds a chat, `getOrCreateDMChat` returns its id
and leaves the store unchanged. -/
theorem getOrCreateDMChat_found (s : Store) (a b : String) (c : ChatRow)
    (hfound : (s.chats.filter (fun c2 =>
      c2.ctype == "dm" && c2.participants.contains a)).find? (fun c2 =>
      c2.participants.contains b) = some c) :
    getOrCreateDMChat s a b = (c.id, s) := by
  unfold getOrCreateDMChat
  rw [hfound]

/-- C1: the fresh direct chat `[a, b]` matches its own pair query. -/
theorem dmForPair_new (s : Store) (a b : String) :
    dmForPair a b ⟨s.nextId, "dm", none, [a, b], none, some s.now⟩ = true := by
  simp [dmForPair]

/-- **C1.** For every pair of users `(a, b)` with no pre-existing direct
chat for the pair: calling `getOrCreateDMChat` a second time returns the
same chatId as the first call, the second call leaves the store
unchanged, and afterwards exactly one direct chat whose participant set
is `{a, b}` exists in the store. -/
theorem getOrCreateDMChat_idempotent_unique (s : Store) (a b : String)
    (hnone : ∀ c ∈ s.chats, c.ctype = "dm" →
      ¬(a ∈ c.participants ∧ b ∈ c.participants)) :
    (getOrCreateDMChat (getOrCreateDMChat s a b).2 a b).1 =
        (getOrCreateDMChat s a b).1 ∧
    (getOrCreateDMChat (getOrCreateDMChat s a b).2 a b).2 =
        (getOrCreateDMChat s a b).2 ∧
    ((getOrCreateDMChat s a b).2.chats.countP (dmForPair a b)) = 1 := by
  rw [getOrCreateDMChat_creates s a b hnone]
  have hfind2 := dmLookup_append_new s.chats a b s.nextId s.now hnone
  refine ⟨?_, ?_, ?_⟩
  · unfold getOrCreateDMChat
    simp only [hfind2]
  · unfold getOrCreateDMChat
    simp only [hfind2]
  · simp only [List.countP_append]
    have h0 : s.chats.countP (dmForPair a b) = 0 := by
      rw [List.countP_eq_zero]
      intro c hc
      simp only [dmForPair, List.contains, Bool.and_eq_true, beq_iff_eq,
        List.elem_iff, not_and]
      intro h _
      exact hnone c hc h.1.1 ⟨h.1.2, h.2⟩
    rw [h0]
    simp [dmForPair_new]

/-- Witness for C1: both calls on the empty chat table of `baseStore`
return chat 10 and exactly one direct chat for `{A, B}` exists. -/
theorem getOrCreateDMChat_idempotent_unique_witness :
    (getOrCreateDMChat (getOrCreateDMChat baseStore "A" "B").2 "A" "B").1 =
        (getOrCreateDMChat baseStore "A" "B").1 ∧
    (getOrCreateDMChat (getOrCreateDMChat baseStore "A" "B").2 "A" "B").2 =
        (getOrCreateDMChat baseStore "A" "B").2 ∧
    ((getOrCreateDMChat baseStore "A" "B").2.chats.countP (dmForPair "A" "B")) = 1 :=
  getOrCreateDMChat_idempotent_unique baseStore "A" "B" (by decide)

/-- **C7.** `sendFriendRequest` fails with the dedicated duplicate error
when a request for the ordered pair already exists, fails with the
dedicated already-friends error when a friend edge `(sender, receiver)`
exists, fails with the dedicated not-found error when the sender has no
profile, and otherwise inserts exactly one new pending request.  Each
failure carries its specific reason (`FriendRequestError` is the distinct
thrown message). -/
theorem sendFriendRequest_trichotomy (s : Store) (sender receiver : String) :
    (getUserById s sender = none →
      sendFriendRequest s sender receiver = .error .senderNotFound) ∧
    ((getUserById s sender).isSome →
      (∃ r ∈ s.friend_requests, r.sender_id = sender ∧ r.receiver_id = receiver) →
      sendFriendRequest s sender receiver = .error .requestAlreadySent) ∧
    ((getUserById s sender).isSome →
      (∀ r ∈ s.friend_requests, ¬(r.sender_id = sender ∧ r.receiver_id = receiver)) →
      (∃ r ∈ s.friends, r.user_id = sender ∧ r.friend_id = receiver) →
      sendFriendRequest s sender receiver = .error .alreadyFriends) ∧
    ((getUserById s sender).isSome →
      (∀ r ∈ s.friend_requests, ¬(r.sender_id = sender ∧ r.receiver_id = receiver)) →
      (∀ r ∈ s.friends, ¬(r.user_id = sender ∧ r.friend_id = receiver)) →
      sendFriendRequest s sender receiver = .ok { s with
        friend_requests := s.friend_requests ++
          [⟨s.nextId, sender, receiver, "pending"⟩],
        nextId := s.nextId + 1,
        now := s.now + 1 }) := by
  refine ⟨?_, ?_, ?_, ?_⟩
  · intro hnone
    unfold sendFriendRequest
    rw [hnone]
  · intro hsome hdup
    obtain ⟨p, hp⟩ := Option.isSome_iff_exists.mp hsome
    unfold sendFriendRequest
    rw [hp]
    have : (s.friend_requests.find? (fun r =>
        r.sender_id == sender && r.receiver_id == receiver)).isSome = true := by
      rw [List.find?_isSome]
      obtain ⟨r, hr, h1, h2⟩ := hdup
      exact ⟨r, hr, by simp [h1, h2]⟩
    simp [this]
  · intro hsome hnodup hfr
    obtain ⟨p, hp⟩ := Option.isSome_iff_exists.mp hsome
    unfold sendFriendRequest
    rw [hp]
    have h1 : (s.friend_requests.find? (fun r =>
        r.sender_id == sender && r.receiver_id == receiver)).isSome = false := by
      rw [Bool.eq_false_iff]
      intro h
      obtain ⟨r, hr, hpr⟩ := List.find?_isSome.mp h
      simp only [Bool.and_eq_true, beq_iff_eq] at hpr
      exact hnodup r hr hpr
    have h2 : (s.friends.find? (fun r =>
        r.user_id == sender && r.friend_id == receiver)).isSome = true := by
      rw [List.find?_isSome]
      obtain ⟨r, hr, ha, hb⟩ := hfr
      exact ⟨r, hr, by simp [ha, hb]⟩
    simp [h1, h2]
  · intro hsome hnodup hnofr
    obtain ⟨p, hp⟩ := Option.isSome_iff_exists.mp hsome
    unfold sendFriendRequest
    rw [hp]
    have h1 : (s.friend_requests.find? (fun r =>
        r.sender_id == sender && r.receiver_id == receiver)).isSome = false := by
      rw [Bool.eq_false_iff]
      intro h
      obtain ⟨r, hr, hpr⟩ := List.find?_isSome.mp h
      simp only [Bool.and_eq_true, beq_iff_eq] at hpr
      exact hnodup r hr hpr
    have h2 : (s.friends.find? (fun r =>
        r.user_id == sender && r.friend_id == receiver)).isSome = false := by
      rw [Bool.eq_false_iff]
      intro h
      obtain ⟨r, hr, hpr⟩ := List.find?_isSome.mp h
      simp only [Bool.and_eq_true, beq_iff_eq] at hpr
      exact hnofr r hr hpr
    simp [h1, h2]

/-- Witness for C7: in `baseStore` (no requests, no edges, sender `A`
present) the success branch fires and appends the single pending
request. -/
theorem sendFriendRequest_trichotomy_witness :
    sendFriendRequest baseStore "A" "B" = .ok { baseStore with
      friend_requests := [⟨10, "A", "B", "pending"⟩],
      nextId := 11,
      now := 101 } :=
  (sendFriendRequest_trichotomy baseStore "A" "B").2.2.2
    (by decide) (by decide) (by decide)

/-- **C3.** `acceptFriendRequest` is idempotent: starting from a store
with no friend edge between the two distinct users and no direct chat for
the pair, calling it twice for the same `(user, friend)` pair returns the
same chatId both times and the second call leaves the store unchanged; in
particular exactly one symmetric pair of friend edges (`u → f` and
`f → u`) exists afterwards.  The second call's pair insert hits the
`UNIQUE(user_id, friend_id)` constraint and is rejected whole, and the
code ignores that error. -/
theorem acceptFriendRequest_idempotent (s : Store) (rid : Nat) (u f : String)
    (hne : u ≠ f)
    (hnof : ∀ r ∈ s.friends,
      ¬(r.user_id = u ∧ r.friend_id = f) ∧ ¬(r.user_id = f ∧ r.friend_id = u))
    (hnoc : ∀ c ∈ s.chats, c.ctype = "dm" →
      ¬(u ∈ c.participants ∧ f ∈ c.participants)) :
    (acceptFriendRequest (acceptFriendRequest s rid u f).2 rid u f).1 =
        (acceptFriendRequest s rid u f).1 ∧
    (acceptFriendRequest (acceptFriendRequest s rid u f).2 rid u f).2 =
        (acceptFriendRequest s rid u f).2 ∧
    ((acceptFriendRequest s rid u f).2.friends.countP (fun r =>
        r.user_id == u && r.friend_id == f)) = 1 ∧
    ((acceptFriendRequest s rid u f).2.friends.countP (fun r =>
        r.user_id == f && r.friend_id == u)) = 1 := by
  have hins1 : (s.friends.any (fun r => r.user_id == u && r.friend_id == f)) = false := by
    rw [Bool.eq_false_iff]
    intro h
    obtain ⟨r, hr, hpr⟩ := List.any_eq_true.mp h
    simp only [Bool.and_eq_true, beq_iff_eq] at hpr
    exact (hnof r hr).1 hpr
  have hins2 : (s.friends.any (fun r => r.user_id == f && r.friend_id == u)) = false := by
    rw [Bool.eq_false_iff]
    intro h
    obtain ⟨r, hr, hpr⟩ := List.any_eq_true.mp h
    simp only [Bool.and_eq_true, beq_iff_eq] at hpr
    exact (hnof r hr).2 hpr
  have hbne : (u == f) = false := by simp [hne]
  have hbne2 : (f == u) = false := by simp [Ne.symm hne]
  have hfirst : acceptFriendRequest s rid u f =
      (s.nextId + 2,
       { s with
         friend_requests := s.friend_requests.filter (fun r => !(r.id == rid)),
         friends := s.friends ++ [⟨s.nextId, u, f⟩, ⟨s.nextId + 1, f, u⟩],
         chats := s.chats ++
           [⟨s.nextId + 2, "dm", none, [u, f], none, some (s.now + 1)⟩],
         nextId := s.nextId + 3,
         now := s.now + 2 }) := by
    unfold acceptFriendRequest friendsInsertPair
    simp only [hins1, hins2, hbne, Bool.or_self, Bool.or_false, Bool.false_or,
      ite_false, Bool.false_eq_true, if_false]
    exact getOrCreateDMChat_creates
      { s with
        friend_requests := s.friend_requests.filter (fun r => !(r.id == rid)),
        friends := s.friends ++ [⟨s.nextId, u, f⟩, ⟨s.nextId + 1, f, u⟩],
        nextId := s.nextId + 2,
        now := s.now + 1 } u f hnoc
  rw [hfirst]
  have hsecond : acceptFriendRequest
      { s with
        friend_requests := s.friend_requests.filter (fun r => !(r.id == rid)),
        friends := s.friends ++ [⟨s.nextId, u, f⟩, ⟨s.nextId + 1, f, u⟩],
        chats := s.chats ++
          [⟨s.nextId + 2, "dm", none, [u, f], none, some (s.now + 1)⟩],
        nextId := s.nextId + 3,
        now := s.now + 2 } rid u f =
      (s.nextId + 2,
       { s with
         friend_requests := s.friend_requests.filter (fun r => !(r.id == rid)),
         friends := s.friends ++ [⟨s.nextId, u, f⟩, ⟨s.nextId + 1, f, u⟩],
         chats := s.chats ++
           [⟨s.nextId + 2, "dm", none, [u, f], none, some (s.now + 1)⟩],
         nextId := s.nextId + 3,
         now := s.now + 2 }) := by
    unfold acceptFriendRequest friendsInsertPair
    have hany : ((s.friends ++ [(⟨s.nextId, u, f⟩ : FriendRow),
        ⟨s.nextId + 1, f, u⟩]).any (fun r =>
        r.user_id == u && r.friend_id == f)) = true := by
      rw [List.any_append]
      simp
    simp only [hany, Bool.true_or, if_true, eq_self_iff_true, List.filter_filter,
      Bool.and_self]
    exact getOrCreateDMChat_found
      { s with
        friend_requests := s.friend_requests.filter (fun r => !(r.id == rid)),
        friends := s.friends ++ [⟨s.nextId, u, f⟩, ⟨s.nextId + 1, f, u⟩],
        chats := s.chats ++
          [⟨s.nextId + 2, "dm", none, [u, f], none, some (s.now + 1)⟩],
        nextId := s.nextId + 3,
        now := s.now + 2 } u f
      ⟨s.nextId + 2, "dm", none, [u, f], none, some (s.now + 1)⟩
      (dmLookup_append_new s.chats u f (s.nextId + 2) (s.now + 1) hnoc)
  rw [hsecond]
  refine ⟨rfl, rfl, ?_, ?_⟩
  · simp only [List.countP_append]
    have h0 : s.friends.countP (fun r => r.user_id == u && r.friend_id == f) = 0 := by
      rw [List.countP_eq_zero]
      intro r hr
      simp only [Bool.and_eq_true, beq_iff_eq, not_and]
      intro h1 h2
      exact (hnof r hr).1 ⟨h1, h2⟩
    rw [h0]
    simp [List.countP_cons, hbne2]
  · simp only [List.countP_append]
    have h0 : s.friends.countP (fun r => r.user_id == f && r.friend_id == u) = 0 := by
      rw [List.countP_eq_zero]
      intro r hr
      simp only [Bool.and_eq_true, beq_iff_eq, not_and]
      intro h1 h2
      exact (hnof r hr).2 ⟨h1, h2⟩
    rw [h0]
    simp [List.countP_cons, hbne]

/-- Witness for C3: accepting request 5 between `A` and `B` twice on
`baseStore` returns the same chat, leaves the second call's store
unchanged, and yields exactly one `A → B` and one `B → A` edge. -/
theorem acceptFriendRequest_idempotent_witness :
    (acceptFriendRequest (acceptFriendRequest baseStore 5 "A" "B").2 5 "A" "B").1 =
        (acceptFriendRequest baseStore 5 "A" "B").1 ∧
    (acceptFriendRequest (acceptFriendRequest baseStore 5 "A" "B").2 5 "A" "B").2 =
        (acceptFriendRequest baseStore 5 "A" "B").2 ∧
    ((acceptFriendRequest baseStore 5 "A" "B").2.friends.countP (fun r =>
        r.user_id == "A" && r.friend_id == "B")) = 1 ∧
    ((acceptFriendRequest baseStore 5 "A" "B").2.friends.countP (fun r =>
        r.user_id == "B" && r.friend_id == "A")) = 1 :=
  acceptFriendRequest_idempotent baseStore 5 "A" "B"
    (by decide) (by decide) (by decide)

/-- Effect of one unread-count bump on the observed counters: the target
key goes up by exactly one, every other key is unchanged. -/
theorem getUnread_bumpUnread (s : Store) (cid : Nat) (u : String)
    (cid2 : Nat) (u2 : String) :
    getUnread (bumpUnread s cid u) cid2 u2 =
      if cid2 = cid ∧ u2 = u then getUnread s cid u + 1
      else getUnread s cid2 u2 := by
  cases hfind : s.unread_counts.find? (fun r => r.chat_id == cid && r.user_id == u) with
  | none =>
    have hb : bumpUnread s cid u =
        { s with unread_counts := s.unread_counts ++ [⟨cid, u, 1⟩] } := by
      unfold bumpUnread
      rw [hfind]
    rw [hb]
    by_cases hk : cid2 = cid ∧ u2 = u
    · obtain ⟨h1, h2⟩ := hk
      subst h1
      subst h2
      unfold getUnread
      simp [List.find?_append, hfind]
    · unfold getUnread
      rw [if_neg hk]
      have hrow : ((⟨cid, u, 1⟩ : UnreadRow).chat_id == cid2 &&
          (⟨cid, u, 1⟩ : UnreadRow).user_id == u2) = false := by
        rw [Bool.eq_false_iff]
        intro h
        simp only [Bool.and_eq_true, beq_iff_eq] at h
        exact hk ⟨h.1.symm, h.2.symm⟩
      have happ : ((s.unread_counts ++ [(⟨cid, u, 1⟩ : UnreadRow)]).find?
          (fun r => r.chat_id == cid2 && r.user_id == u2)) =
          s.unread_counts.find? (fun r => r.chat_id == cid2 && r.user_id == u2) := by
        rw [List.find?_append]
        simp [List.find?_cons, hrow]
      rw [happ]
  | some r0 =>
    have hb : bumpUnread s cid u =
        { s with unread_counts := s.unread_counts.map (fun r =>
            if r.chat_id == cid && r.user_id == u then { r with count := r0.count + 1 }
            else r) } := by
      unfold bumpUnread
      rw [hfind]
    rw [hb]
    have hp : ∀ r : UnreadRow,
        (((if r.chat_id == cid && r.user_id == u then
            ({ r with count := r0.count + 1 } : UnreadRow) else r).chat_id == cid2) &&
         ((if r.chat_id == cid && r.user_id == u then
            ({ r with count := r0.count + 1 } : UnreadRow) else r).user_id == u2)) =
        (r.chat_id == cid2 && r.user_id == u2) := by
      intro r
      cases h : (r.chat_id == cid && r.user_id == u) with
      | true => simp [h]
      | false => simp [h]
    have hmap := find?_map_of_pres s.unread_counts
      (fun r => r.chat_id == cid2 && r.user_id == u2)
      (fun r => if r.chat_id == cid && r.user_id == u then
        { r with count := r0.count + 1 } else r)
      hp
    unfold getUnread
    rw [hmap]
    by_cases hk : cid2 = cid ∧ u2 = u
    · obtain ⟨h1, h2⟩ := hk
      subst h1
      subst h2
      rw [hfind]
      have hr0 := List.find?_some hfind
      simp only [Bool.and_eq_true, beq_iff_eq] at hr0
      simp [hr0]
    · rw [if_neg hk]
      cases hf2 : s.unread_counts.find? (fun r => r.chat_id == cid2 && r.user_id == u2) with
      | none => simp
      | some r1 =>
        have hk1 := List.find?_some hf2
        simp only [Bool.and_eq_true, beq_iff_eq] at hk1
        have hnotkey : (r1.chat_id == cid && r1.user_id == u) = false := by
          rw [Bool.eq_false_iff]
          intro h
          simp only [Bool.and_eq_true, beq_iff_eq] at h
          exact hk ⟨hk1.1 ▸ h.1.symm ▸ rfl, hk1.2 ▸ h.2.symm ▸ rfl⟩
        have hnotkey2 : ¬(r1.chat_id = cid ∧ r1.user_id = u) := by
          rw [Bool.eq_false_iff] at hnotkey
          intro h
          exact hnotkey (by simp [h.1, h.2])
        simp [hf2, hnotkey2]

/-- Effect of the whole unread-count loop of `sendMessage` on the
observed counters: over a duplicate-free participant list, every
participant other than the sender goes up by exactly one and everything
else is unchanged. -/
theorem getUnread_bumpLoop (l : List String) (s : Store) (cid : Nat)
    (sender : String) (cid2 : Nat) (q : String) (hnd : l.Nodup) :
    getUnread (l.foldl (fun acc p =>
        if p == sender then acc else bumpUnread acc cid p) s) cid2 q =
      if cid2 = cid ∧ q ∈ l ∧ q ≠ sender then getUnread s cid2 q + 1
      else getUnread s cid2 q := by
  induction l generalizing s with
  | nil => simp
  | cons p t ih =>
    rw [List.nodup_cons] at hnd
    obtain ⟨hpt, hndt⟩ := hnd
    rw [List.foldl_cons, ih _ hndt]
    by_cases hps : p = sender
    · have hredf : (if (p == sender) = true then s else bumpUnread s cid p) = s := by
        rw [if_pos (by simp [hps])]
      rw [hredf]
      by_cases hq : cid2 = cid ∧ q ∈ t ∧ q ≠ sender
      · rw [if_pos hq, if_pos ⟨hq.1, List.mem_cons_of_mem p hq.2.1, hq.2.2⟩]
      · rw [if_neg hq, if_neg ?hn1]
        case hn1 =>
          intro h
          apply hq
          refine ⟨h.1, ?_, h.2.2⟩
          rcases List.mem_cons.mp h.2.1 with h1 | h1
          · exact absurd (h1.trans hps) h.2.2
          · exact h1
    · have hredf : (if (p == sender) = true then s else bumpUnread s cid p) =
          bumpUnread s cid p := by
        rw [if_neg (by simp [hps])]
      rw [hredf, getUnread_bumpUnread]
      by_cases hq1 : cid2 = cid ∧ q ∈ t ∧ q ≠ sender
      · have hqp : ¬(cid2 = cid ∧ q = p) := by
          intro h
          exact hpt (h.2 ▸ hq1.2.1)
        rw [if_pos hq1, if_neg hqp,
          if_pos ⟨hq1.1, List.mem_cons_of_mem p hq1.2.1, hq1.2.2⟩]
      · rw [if_neg hq1]
        by_cases hq2 : cid2 = cid ∧ q = p
        · rw [if_pos hq2,
            if_pos ⟨hq2.1, hq2.2 ▸ List.mem_cons_self p t,
              fun hqs => hps (by rw [← hq2.2]; exact hqs)⟩]
          rw [hq2.1, hq2.2]
        · rw [if_neg hq2, if_neg ?hn2]
          case hn2 =>
            intro h
            rcases List.mem_cons.mp h.2.1 with h1 | h1
            · exact hq2 ⟨h.1, h1⟩
            · exact hq1 ⟨h.1, h1, h.2.2⟩

/-- Explicit run of `sendMessage` on an existing chat: the message row is
appended, the chat summary updated, and the unread-count loop folds over
the chat's participants. -/
theorem sendMessage_run (s : Store) (cid : Nat) (sender nm content : String)
    (c : ChatRow) (hc : s.chats.find? (fun ch => ch.id == cid) = some c) :
    sendMessage s cid sender nm content =
      .ok (s.nextId, c.participants.foldl (fun acc p =>
        if p == sender then acc else bumpUnread acc cid p)
        { s with
          messages := s.messages ++ [⟨s.nextId, cid, sender, nm, content, s.now⟩],
          chats := s.chats.map (fun c2 =>
            if c2.id == cid then
              { c2 with last_message := some content,
                        last_message_time := some (s.now + 1) }
            else c2),
          nextId := s.nextId + 1,
          now := s.now + 2 }) := by
  have hcbool := List.find?_some hc
  unfold sendMessage
  rw [hc]
  simp only [Option.isNone_some, Bool.false_eq_true, if_false]
  have hp : ∀ a : ChatRow,
      ((if a.id == cid then
        ({ a with last_message := some content,
                  last_message_time := some (s.now + 1) } : ChatRow)
        else a).id == cid) = (a.id == cid) := by
    intro a
    cases h : (a.id == cid) with
    | true => simp [h]
    | false => simp [h]
  have hfind2 : ((s.chats.map (fun c2 =>
      if c2.id == cid then
        { c2 with last_message := some content,
                  last_message_time := some (s.now + 1) }
      else c2)).find? (fun c2 => c2.id == cid)) =
      some { c with last_message := some content,
                    last_message_time := some (s.now + 1) } := by
    rw [find?_map_of_pres s.chats (fun c2 => c2.id == cid) _ hp, hc,
      Option.map_some', if_pos hcbool]
  rw [hfind2]

/-- The unread-count loop of `sendMessage` touches only `unread_counts`:
the message table is unchanged by it. -/
theorem bumpLoop_messages (l : List String) (s : Store) (cid : Nat)
    (sender : String) :
    (l.foldl (fun acc p =>
      if p == sender then acc else bumpUnread acc cid p) s).messages =
    s.messages := by
  induction l generalizing s with
  | nil => rfl
  | cons p t ih =>
    rw [List.foldl_cons, ih]
    by_cases hps : (p == sender) = true
    · rw [if_pos hps]
    · rw [if_neg hps]
      unfold bumpUnread
      cases s.unread_counts.find? (fun r =>
        r.chat_id == cid && r.user_id == p) <;> rfl

/-- **C2.** For every chat and every successful `sendMessage`: the unread
counter of every participant of the chat other than the sender goes up by
exactly 1, and every other counter for that chat — in particular the
sender's own — is unchanged.  In particular, after `A` sends the first
message in a fresh direct chat with `B`, `B`'s count is 1 and `A`'s count
is 0. -/
theorem sendMessage_unread_increments :
    (∀ (s : Store) (cid : Nat) (sender nm content : String) (c : ChatRow),
      s.chats.find? (fun ch => ch.id == cid) = some c →
      c.participants.Nodup →
      ∃ mid s3, sendMessage s cid sender nm content = .ok (mid, s3) ∧
        (∀ p, p ∈ c.participants → p ≠ sender →
          getUnread s3 cid p = getUnread s cid p + 1) ∧
        (∀ p, p ∉ c.participants ∨ p = sender →
          getUnread s3 cid p = getUnread s cid p)) ∧
    (∃ mid s3,
      sendMessage (getOrCreateDMChat baseStore "A" "B").2
          (getOrCreateDMChat baseStore "A" "B").1 "A" "A" "hi" = .ok (mid, s3) ∧
      getUnread s3 (getOrCreateDMChat baseStore "A" "B").1 "B" = 1 ∧
      getUnread s3 (getOrCreateDMChat baseStore "A" "B").1 "A" = 0) := by
  constructor
  · intro s cid sender nm content c hc hnd
    refine ⟨s.nextId, _, sendMessage_run s cid sender nm content c hc, ?_, ?_⟩
    · intro p hp2 hps
      rw [getUnread_bumpLoop _ _ _ _ _ _ hnd, if_pos ⟨rfl, hp2, hps⟩]
      rfl
    · intro p hor
      rw [getUnread_bumpLoop _ _ _ _ _ _ hnd, if_neg ?hn3]
      case hn3 =>
        intro h
        rcases hor with h1 | h1
        · exact h1 h.2.1
        · exact h.2.2 h1
      rfl
  · exact ⟨11, _, rfl, rfl, rfl⟩

/-- `baseStore` after creating the direct chat between `A` and `B`:
holds chat 10 with participants `["A", "B"]`. -/
def dmStore : Store := (getOrCreateDMChat baseStore "A" "B").2

/-- Witness for C2: sending into chat 10 of `dmStore` bumps `B` (the only
non-sender participant) by one and leaves every other counter alone. -/
theorem sendMessage_unread_increments_witness :
    ∃ mid s3, sendMessage dmStore 10 "A" "A" "hi" = .ok (mid, s3) ∧
      (∀ p, p ∈ ["A", "B"] → p ≠ "A" →
        getUnread s3 10 p = getUnread dmStore 10 p + 1) ∧
      (∀ p, p ∉ ["A", "B"] ∨ p = "A" →
        getUnread s3 10 p = getUnread dmStore 10 p) :=
  sendMessage_unread_increments.1 dmStore 10 "A" "A" "hi"
    ⟨10, "dm", none, ["A", "B"], none, some 100⟩ rfl (by decide)

/-- The message table after a `sendMessage` call, for observing what a
send persisted (empty on the foreign-key error). -/
def sentMessages (r : Except String (Nat × Store)) : List MessageRow :=
  match r with
  | .ok (_, s) => s.messages
  | .error _ => []

/-- **C5, counterexample.** Sender `C` is not a participant of chat 10 of
`dmStore` and the content is empty, yet `sendMessage` succeeds and the
empty message from `C` is persisted — against the claim that empty
content is rejected before persisting and a non-participant sender fails
with Unauthorized with no message record created. -/
theorem sendMessage_no_validation_cex :
    dmStore.chats.map (fun c => c.participants) = [["A", "B"]] ∧
    sentMessages (sendMessage dmStore 10 "C" "C" "") =
      [⟨11, 10, "C", "C", "", 101⟩] := by
  exact ⟨rfl, rfl⟩

/-- **C5, amended.** `sendMessage` performs no content or membership
validation: for any existing chat it succeeds and appends the message row
unconditionally — in particular also when the content is empty and the
sender is not in the chat's participant list.  (The only guard in the
repository is the UI's refusal to submit blank input.) -/
theorem sendMessage_persists_unconditionally (s : Store) (cid : Nat)
    (sender nm content : String) (c : ChatRow)
    (hc : s.chats.find? (fun ch => ch.id == cid) = some c) :
    ∃ s3, sendMessage s cid sender nm content = .ok (s.nextId, s3) ∧
      s3.messages = s.messages ++ [⟨s.nextId, cid, sender, nm, content, s.now⟩] := by
  refine ⟨_, sendMessage_run s cid sender nm content c hc, ?_⟩
  rw [bumpLoop_messages]

/-- Witness for the amended C5: chat 10 exists in `dmStore`, and a send
with empty content from the non-participant `C` persists its row. -/
theorem sendMessage_persists_unconditionally_witness :
    ∃ s3, sendMessage dmStore 10 "C" "C" "" = .ok (11, s3) ∧
      s3.messages = dmStore.messages ++ [⟨11, 10, "C", "C", "", 101⟩] :=
  sendMessage_persists_unconditionally dmStore 10 "C" "C" ""
    ⟨10, "dm", none, ["A", "B"], none, some 100⟩ rfl

/-- Inserting an element below every element of a list puts it in front. -/
theorem insertByCreatedAt_of_le (m : MessageRow) (l : List MessageRow)
    (h : ∀ x ∈ l, m.created_at ≤ x.created_at) :
    insertByCreatedAt m l = m :: l := by
  cases l with
  | nil => rfl
  | cons x xs =>
    unfold insertByCreatedAt
    rw [if_pos (h x (List.mem_cons_self x xs))]

/-- Sorting a list already in ascending `created_at` order is the
identity. -/
theorem sortByCreatedAt_of_sorted (l : List MessageRow)
    (h : l.Pairwise (fun a b => a.created_at ≤ b.created_at)) :
    sortByCreatedAt l = l := by
  induction l with
  | nil => rfl
  | cons x xs ih =>
    rw [List.pairwise_cons] at h
    unfold sortByCreatedAt
    rw [List.foldr_cons]
    have hxs : xs.foldr insertByCreatedAt [] = xs := ih h.2
    rw [hxs]
    exact insertByCreatedAt_of_le x xs h.1

/-- **C6, amended.** When the chat's rows are already in ascending
`created_at` order (as store-assigned, monotonically increasing
timestamps leave them), the message query returns the first — i.e. the
oldest — 100 messages in ascending order, not the most recent 100. -/
theorem fetchMessages_oldest_100 (s : Store) (cid : Nat)
    (hsorted : (s.messages.filter (fun m => m.chat_id == cid)).Pairwise
      (fun a b => a.created_at ≤ b.created_at)) :
    fetchMessages s cid =
      (s.messages.filter (fun m => m.chat_id == cid)).take 100 := by
  unfold fetchMessages
  rw [sortByCreatedAt_of_sorted _ hsorted]

/-- A store holding chat 0 with 101 messages, ids and `created_at` both
running 0 to 100. -/
def store101 : Store :=
  ⟨[], [], [], [⟨0, "dm", none, ["a", "b"], none, some 0⟩],
   (List.range 101).map (fun i => ⟨i, 0, "a", "A", "m", i⟩),
   [], [], [], 200, 200⟩

/-- **C6, counterexample.** Chat 0 of `store101` has 101 messages with
ids 0..100 in creation order, and the query returns ids 0..99 — the
oldest 100 — whereas the claim requires the last 100 (ids 1..100).  The
two lists differ. -/
theorem fetchMessages_oldest_cex :
    ((store101.messages.filter (fun m => m.chat_id == 0)).map (fun m => m.id)) =
      List.range 101 ∧
    ((fetchMessages store101 0).map (fun m => m.id)) = List.range 100 ∧
    List.range 100 ≠ (List.range 101).drop 1 := by
  refine ⟨by decide, by decide, by decide⟩

/-- Witness for the amended C6: `store101`'s message table is sorted, and
the query returns the oldest 100 rows. -/
theorem fetchMessages_oldest_100_witness :
    fetchMessages store101 0 =
      (store101.messages.filter (fun m => m.chat_id == 0)).take 100 :=
  fetchMessages_oldest_100 store101 0 (by decide)

/-- `dmStore` after `A` sends "hi" into chat 10: the chat summary fields
are populated and `B` has one unread message. -/
def sentStore : Store :=
  match sendMessage dmStore 10 "A" "A" "hi" with
  | .ok (_, s) => s
  | .error _ => dmStore

/-- **C8, counterexample.** In `sentStore` chat 10 carries
`last_message_time = some 102`; after `clearChat` the chat still carries
it — `clearChat` nulls only `last_message`, against the claim that all
summary fields (`lastMessage`, `lastMessageTime`, `lastSender`) are
nulled. -/
theorem clearChat_keeps_time_cex :
    sentStore.chats.map (fun c => (c.last_message, c.last_message_time)) =
      [(some "hi", some 102)] ∧
    (clearChat sentStore 10).chats.map (fun c =>
      (c.last_message, c.last_message_time)) = [(none, some 102)] ∧
    some 102 ≠ (none : Option Nat) := by
  refine ⟨rfl, rfl, by decide⟩

/-- **C8, amended.** `clearChat` deletes all of the chat's messages
(keeping every other chat's messages), nulls `last_message` only —
`last_message_time` is left unchanged, and the chats schema has no
last-sender column — and leaves every unread counter unchanged. -/
theorem clearChat_frame (s : Store) (cid : Nat) (c : ChatRow)
    (hc : s.chats.find? (fun ch => ch.id == cid) = some c) :
    (∀ m ∈ (clearChat s cid).messages, m.chat_id ≠ cid) ∧
    (∀ m ∈ s.messages, m.chat_id ≠ cid → m ∈ (clearChat s cid).messages) ∧
    ((clearChat s cid).chats.find? (fun ch => ch.id == cid) =
      some { c with last_message := none }) ∧
    (clearChat s cid).unread_counts = s.unread_counts := by
  have hcbool := List.find?_some hc
  have hmsg : (clearChat s cid).messages =
      s.messages.filter (fun m => !(m.chat_id == cid)) := rfl
  have hchats : (clearChat s cid).chats =
      s.chats.map (fun c2 =>
        if c2.id == cid then { c2 with last_message := none } else c2) := rfl
  refine ⟨?_, ?_, ?_, rfl⟩
  · intro m hm
    rw [hmsg] at hm
    have hkeep := (List.mem_filter.mp hm).2
    intro he
    rw [he] at hkeep
    simp at hkeep
  · intro m hm hne
    rw [hmsg]
    refine List.mem_filter.mpr ⟨hm, ?_⟩
    simp [hne]
  · have hp : ∀ a : ChatRow,
        ((if a.id == cid then ({ a with last_message := none } : ChatRow)
          else a).id == cid) = (a.id == cid) := by
      intro a
      cases h : (a.id == cid) with
      | true => simp [h]
      | false => simp [h]
    rw [hchats, find?_map_of_pres s.chats (fun ch => ch.id == cid) _ hp, hc,
      Option.map_some', if_pos hcbool]

/-- Witness for the amended C8: clearing chat 10 of `sentStore` empties
its messages, nulls `last_message`, keeps `last_message_time = some 102`,
and keeps `B`'s unread counter. -/
theorem clearChat_frame_witness :
    (∀ m ∈ (clearChat sentStore 10).messages, m.chat_id ≠ 10) ∧
    (∀ m ∈ sentStore.messages, m.chat_id ≠ 10 →
      m ∈ (clearChat sentStore 10).messages) ∧
    ((clearChat sentStore 10).chats.find? (fun ch => ch.id == 10) =
      some ⟨10, "dm", none, ["A", "B"], none, some 102⟩) ∧
    (clearChat sentStore 10).unread_counts = sentStore.unread_counts :=
  clearChat_frame sentStore 10 ⟨10, "dm", none, ["A", "B"], some "hi", some 102⟩ rfl

/-- The participant lists of all chats after an `addGroupMember` call
(empty on the not-found error), for observing the duplicate it creates. -/
def participantsAfterAdd (s : Store) (cid : Nat) (u : String) :
    List (List String) :=
  match addGroupMember s cid u with
  | .ok s2 => s2.chats.map (fun c => c.participants)
  | .error _ => []

/-- `baseStore` after `A` creates the group "g" with member `B`:
holds group chat 10 with participants `["A", "B"]`. -/
def groupStore : Store :=
  match createGroup baseStore "g" "A" ["B"] with
  | .ok (_, s) => s
  | .error _ => baseStore

/-- **C9, counterexample.** Chat 10 of `groupStore` already contains `A`,
yet `addGroupMember` appends `A` again: the resulting participant list is
`["A", "B", "A"]`, which has a duplicate — against the claim that adding
an existing participant does not introduce a duplicate entry. -/
theorem addGroupMember_duplicate_cex :
    groupStore.chats.map (fun c => c.participants) = [["A", "B"]] ∧
    participantsAfterAdd groupStore 10 "A" = [["A", "B", "A"]] ∧
    ¬ (["A", "B", "A"] : List String).Nodup := by
  refine ⟨rfl, rfl, by decide⟩

/-- `dedupFirstAux` yields a duplicate-free list avoiding `seen`. -/
theorem dedupFirstAux_nodup (l : List String) :
    ∀ seen : List String,
      (dedupFirstAux seen l).Nodup ∧
      ∀ x ∈ dedupFirstAux seen l, ¬ (seen.contains x = true) := by
  induction l with
  | nil => exact fun seen => ⟨List.nodup_nil, by intro x hx; cases hx⟩
  | cons y ys ih =>
    intro seen
    unfold dedupFirstAux
    cases hy : seen.contains y with
    | true =>
      simp only [if_true]
      exact ih seen
    | false =>
      simp only [Bool.false_eq_true, if_false]
      obtain ⟨hnd, hnot⟩ := ih (y :: seen)
      constructor
      · rw [List.nodup_cons]
        refine ⟨?_, hnd⟩
        intro hy2
        exact hnot y hy2 (by simp)
      · intro x hx
        rcases List.mem_cons.mp hx with h1 | h1
        · rw [h1, hy]
          simp
        · intro hxs
          exact hnot x h1 (by simp only [List.contains_cons]; rw [hxs]; simp)

/-- `dedupFirst` yields a duplicate-free list. -/
theorem dedupFirst_nodup (l : List String) : (dedupFirst l).Nodup :=
  (dedupFirstAux_nodup l []).1

/-- **C9, amended.** Participant lists are non-empty and duplicate-free
as `createGroup` builds them (`new Set` deduplication plus the ≥ 2
membership check), and `removeGroupMember` preserves duplicate-freeness;
but `addGroupMember` appends the user unconditionally, so it preserves
uniqueness exactly when the user was not already a participant and
introduces a duplicate entry otherwise. -/
theorem participants_unique_amended :
    (∀ (s : Store) (name adminId : String) (memberIds : List String)
        (cid : Nat) (s2 : Store),
      createGroup s name adminId memberIds = .ok (cid, s2) →
      ∃ parts : List String,
        s2.chats = s.chats ++
          [⟨cid, "group", some (strTrim name), parts, none, some s.now⟩] ∧
        parts.Nodup ∧ 2 ≤ parts.length) ∧
    (∀ (s : Store) (cid : Nat) (u : String) (c : ChatRow),
      s.chats.find? (fun ch => ch.id == cid) = some c →
      ∃ s2, addGroupMember s cid u = .ok s2 ∧
        s2.chats.find? (fun ch => ch.id == cid) =
          some { c with participants := c.participants ++ [u] } ∧
        ((c.participants ++ [u]).Nodup ↔
          c.participants.Nodup ∧ u ∉ c.participants)) ∧
    (∀ (s : Store) (cid : Nat) (u : String) (c : ChatRow),
      s.chats.find? (fun ch => ch.id == cid) = some c →
      ∃ s2, removeGroupMember s cid u = .ok s2 ∧
        s2.chats.find? (fun ch => ch.id == cid) =
          some { c with participants :=
            c.participants.filter (fun id => !(id == u)) } ∧
        (c.participants.Nodup →
          (c.participants.filter (fun id => !(id == u))).Nodup)) := by
  refine ⟨?_, ?_, ?_⟩
  · intro s name adminId memberIds cid s2 hok
    unfold createGroup at hok
    by_cases hlen : ((dedupFirst (adminId :: memberIds)).filter
        (fun id => (strTrim id).length > 0)).length < 2
    · rw [if_pos hlen] at hok
      cases hok
    · rw [if_neg hlen] at hok
      injection hok with hok2
      injection hok2 with hcid hs2
      refine ⟨(dedupFirst (adminId :: memberIds)).filter
        (fun id => (strTrim id).length > 0), ?_, ?_, ?_⟩
      · rw [← hs2, ← hcid]
      · exact List.Nodup.filter _ (dedupFirst_nodup _)
      · exact Nat.le_of_not_lt hlen
  · intro s cid u c hc
    have hcbool := List.find?_some hc
    have hp : ∀ a : ChatRow,
        ((if a.id == cid then
          ({ a with participants := c.participants ++ [u] } : ChatRow)
          else a).id == cid) = (a.id == cid) := by
      intro a
      cases h : (a.id == cid) with
      | true => simp [h]
      | false => simp [h]
    have hfind : ((s.chats.map (fun c2 =>
        if c2.id == cid then { c2 with participants := c.participants ++ [u] }
        else c2)).find? (fun ch => ch.id == cid)) =
        some { c with participants := c.participants ++ [u] } := by
      rw [find?_map_of_pres s.chats (fun ch => ch.id == cid) _ hp, hc,
        Option.map_some', if_pos hcbool]
    have hiff : (c.participants ++ [u]).Nodup ↔
        c.participants.Nodup ∧ u ∉ c.participants := by
      rw [List.nodup_append]
      constructor
      · intro h
        exact ⟨h.1, fun hu => h.2.2 hu (List.mem_singleton_self u)⟩
      · intro h
        refine ⟨h.1, List.nodup_singleton u, ?_⟩
        intro x hx hx2
        rw [List.mem_singleton.mp hx2] at hx
        exact h.2 hx
    unfold addGroupMember
    rw [hc]
    dsimp only
    by_cases hmem : ((s.group_members.any (fun g =>
        g.chat_id == cid && g.user_id == u)) = true)
    · rw [if_pos hmem]
      exact ⟨_, rfl, hfind, hiff⟩
    · rw [if_neg hmem]
      exact ⟨_, rfl, hfind, hiff⟩
  · intro s cid u c hc
    have hcbool := List.find?_some hc
    have hp : ∀ a : ChatRow,
        ((if a.id == cid then
          ({ a with participants :=
            c.participants.filter (fun id => !(id == u)) } : ChatRow)
          else a).id == cid) = (a.id == cid) := by
      intro a
      cases h : (a.id == cid) with
      | true => simp [h]
      | false => simp [h]
    unfold removeGroupMember
    rw [hc]
    refine ⟨_, rfl, ?_, ?_⟩
    · rw [find?_map_of_pres s.chats (fun ch => ch.id == cid) _ hp, hc,
        Option.map_some', if_pos hcbool]
    · intro hnd
      exact List.Nodup.filter _ hnd

/-- Witness for the amended C9: on `groupStore`'s chat 10 with
participants `["A", "B"]`, adding the fresh user `C` keeps the list
duplicate-free while adding the existing `A` would not, and removing `B`
keeps it duplicate-free. -/
theorem participants_unique_amended_witness :
    (∃ s2, addGroupMember groupStore 10 "C" = .ok s2 ∧
      s2.chats.find? (fun ch => ch.id == 10) =
        some ⟨10, "group", some "g", ["A", "B", "C"], none, some 100⟩ ∧
      ((["A", "B"] ++ ["C"] : List String).Nodup ↔
        (["A", "B"] : List String).Nodup ∧ "C" ∉ (["A", "B"] : List String))) ∧
    (∃ s2, removeGroupMember groupStore 10 "B" = .ok s2 ∧
      s2.chats.find? (fun ch => ch.id == 10) =
        some ⟨10, "group", some "g", ["A"], none, some 100⟩ ∧
      ((["A", "B"] : List String).Nodup →
        ((["A", "B"] : List String).filter (fun id => !(id == "B"))).Nodup)) :=
  ⟨participants_unique_amended.2.1 groupStore 10 "C"
      ⟨10, "group", some "g", ["A", "B"], none, some 100⟩ rfl,
   participants_unique_amended.2.2 groupStore 10 "B"
      ⟨10, "group", some "g", ["A", "B"], none, some 100⟩ rfl⟩

/-- `dmStore` with `B`'s typing flag set true at time 101 and then
100000 time units of silence: far beyond any staleness bound. -/
def staleStore : Store := tick (setTypingStatus dmStore 10 "B" true) 100000

/-- **C4, counterexample.** `B`'s flag was set true at time 101, never
refreshed, and the clock has advanced 100000 units — far past the
recommended staleness bound of 4000 (2× the 2000 ms debounce) — yet the
typing query still returns `B`: readers never compare `updated_at`,
against the claim that stale flags are excluded. -/
theorem stale_typing_included_cex :
    staleStore.typing_status = [⟨10, "B", true, 101⟩] ∧
    staleStore.now = 100102 ∧
    100102 - 101 > 4000 ∧
    fetchTyping staleStore 10 "A" = ["B"] := by
  refine ⟨rfl, rfl, by decide, rfl⟩

/-- **C4, amended.** Readers apply no staleness bound: a typing flag set
true and never rewritten stays in the reader-computed typing set no
matter how much wall-clock time passes — it is removed only by an
explicit `setTypingStatus false` write (which the writer schedules via
its 2000 ms debounce timer, on send, and on blur). -/
theorem fetchTyping_ignores_age (s : Store) (cid : Nat) (u me : String)
    (d : Nat) (hne : u ≠ me) :
    u ∈ fetchTyping (tick (setTypingStatus s cid u true) d) cid me := by
  have htick : fetchTyping (tick (setTypingStatus s cid u true) d) cid me =
      fetchTyping (setTypingStatus s cid u true) cid me := rfl
  rw [htick]
  have hbne : (u != me) = true := by simp [hne]
  unfold setTypingStatus fetchTyping
  cases hfind : s.typing_status.find? (fun t =>
      t.chat_id == cid && t.user_id == u) with
  | none =>
    dsimp only
    refine List.mem_map.mpr ⟨⟨cid, u, true, s.now⟩, ?_, rfl⟩
    refine List.mem_filter.mpr ⟨List.mem_append_right _ (by simp), ?_⟩
    simp [hbne]
  | some r0 =>
    dsimp only
    have hr0 := List.find?_some hfind
    simp only [Bool.and_eq_true, beq_iff_eq] at hr0
    refine List.mem_map.mpr
      ⟨⟨r0.chat_id, r0.user_id, true, s.now⟩, ?_, hr0.2⟩
    refine List.mem_filter.mpr ⟨?_, ?_⟩
    · have hmem := List.mem_of_find?_eq_some hfind
      have : (⟨r0.chat_id, r0.user_id, true, s.now⟩ : TypingRow) =
          (fun t : TypingRow =>
            if t.chat_id == cid && t.user_id == u then
              { t with is_typing := true, updated_at := s.now }
            else t) r0 := by
        simp [hr0.1, hr0.2]
      rw [this]
      exact List.mem_map_of_mem _ hmem
    · simp [hr0.1, hr0.2, hbne]

/-- Witness for the amended C4: with `B`'s flag set and 100000 units of
silence, `B` is still in the typing set that `A` observes. -/
theorem fetchTyping_ignores_age_witness :
    "B" ∈ fetchTyping (tick (setTypingStatus dmStore 10 "B" true) 100000)
      10 "A" :=
  fetchTyping_ignores_age dmStore 10 "B" "A" 100000 (by decide)

/-- **C10.** The Firebase `acceptFriendRequest` is not atomic on error:
it deletes the friend-request document before looking up the two user
profiles, so when either lookup fails the call returns the
`'User not found'` error with the request already deleted while no friend
documents and no chat were created — the state has changed despite the
error. -/
theorem fbAcceptFriendRequest_error_after_delete (s : FBState) (rid : Nat)
    (u f : String)
    (hmiss : fbGetUserById s u = none ∨ fbGetUserById s f = none) :
    (fbAcceptFriendRequest s rid u f).1 = .error "User not found" ∧
    (fbAcceptFriendRequest s rid u f).2.friendRequests =
      s.friendRequests.filter (fun r => !(r.id == rid)) ∧
    (∀ r ∈ (fbAcceptFriendRequest s rid u f).2.friendRequests, r.id ≠ rid) ∧
    (fbAcceptFriendRequest s rid u f).2.friendDocs = s.friendDocs ∧
    (fbAcceptFriendRequest s rid u f).2.chats = s.chats := by
  have hdel : ∀ r ∈ s.friendRequests.filter (fun r => !(r.id == rid)),
      r.id ≠ rid := by
    intro r hr
    have hkeep := (List.mem_filter.mp hr).2
    intro he
    rw [he] at hkeep
    simp at hkeep
  have hrun : fbAcceptFriendRequest s rid u f =
      (.error "User not found",
       { s with friendRequests :=
          s.friendRequests.filter (fun r => !(r.id == rid)) }) := by
    unfold fbAcceptFriendRequest
    dsimp only
    rcases hmiss with hu | hf
    · have hu2 : fbGetUserById
          { s with friendRequests :=
            s.friendRequests.filter (fun r => !(r.id == rid)) } u = none := hu
      rw [hu2]
    · have hf2 : fbGetUserById
          { s with friendRequests :=
            s.friendRequests.filter (fun r => !(r.id == rid)) } f = none := hf
      rw [hf2]
      cases fbGetUserById
        { s with friendRequests :=
          s.friendRequests.filter (fun r => !(r.id == rid)) } u <;> rfl
  rw [hrun]
  exact ⟨rfl, rfl, hdel, rfl, rfl⟩

/-- A Firestore state with `A`'s profile, a pending request from `A` to
the missing user `B`, and nothing else. -/
def fbBase : FBState :=
  ⟨[⟨"A", "a", "A", none⟩], [⟨5, "A", "B", "pending"⟩], [], [], 20, 0⟩

/-- Witness for C10: accepting request 5 on `fbBase`, where `B` has no
profile, throws `'User not found'` with the request already gone and no
friend documents or chats created. -/
theorem fbAcceptFriendRequest_error_after_delete_witness :
    (fbAcceptFriendRequest fbBase 5 "A" "B").1 = .error "User not found" ∧
    (fbAcceptFriendRequest fbBase 5 "A" "B").2.friendRequests =
      fbBase.friendRequests.filter (fun r => !(r.id == 5)) ∧
    (∀ r ∈ (fbAcceptFriendRequest fbBase 5 "A" "B").2.friendRequests,
      r.id ≠ 5) ∧
    (fbAcceptFriendRequest fbBase 5 "A" "B").2.friendDocs = fbBase.friendDocs ∧
    (fbAcceptFriendRequest fbBase 5 "A" "B").2.chats = fbBase.chats :=
  fbAcceptFriendRequest_error_after_delete fbBase 5 "A" "B" (Or.inr rfl)

end LiveLink
